import Mathlib

/-!
A shallow embedding of `Examples/Registration/IterativeClosestPoint1.cxx`: the
`main` function of the example, the text streams it reads its two point sets
from, and the objects it configures before it calls `StartRegistration`.

Coordinates, tolerances and transform parameters are exact rationals: the
decimal literal `1e-1` is `1/10`, and a number read from a file is the value
of its decimal text.  Rounding to `float`/`double` is not modelled; the range
of `float` is, where a number is read.
-/

namespace ICP

/-! ## Points and the points container -/

/-- A 2-D point, `itk::PointSet< float, 2 >::PointType`. -/
structure Point where
  x : ℚ
  y : ℚ
deriving DecidableEq, Repr

/-- Modelled from the spec: the points container of `itk::PointSet` (its code
is not part of the example).  "Mapping from an integer identifier to a Point";
the entries are kept in increasing identifier order, so that "iteration yields
points in identifier order". -/
structure PointsContainer where
  entries : List (Nat × Point)
deriving DecidableEq, Repr

/-- Ordered insertion into an identifier-sorted entry list; an entry with the
same identifier is overwritten. -/
def insertEntry (id : Nat) (p : Point) : List (Nat × Point) → List (Nat × Point)
  | [] => [(id, p)]
  | e :: t =>
    if id < e.1 then (id, p) :: e :: t
    else if id = e.1 then (id, p) :: t
    else e :: insertEntry id p t

namespace PointsContainer

/-- A freshly created container holds no point. -/
def empty : PointsContainer := ⟨[]⟩

/-- Modelled from the spec: "`insert(id, point)` adds or overwrites a point at
`id`" (`InsertElement`). -/
def InsertElement (c : PointsContainer) (id : Nat) (p : Point) : PointsContainer :=
  ⟨insertEntry id p c.entries⟩

/-- Modelled from the spec: "`count()` returns the number of points"
(`GetNumberOfPoints`). -/
def GetNumberOfPoints (c : PointsContainer) : Nat := c.entries.length

/-- Modelled from the spec: "`get(id)` fails with `OutOfRange` if `id` is not
present"; the failure is `none`. -/
def GetElement (c : PointsContainer) (id : Nat) : Option Point :=
  (c.entries.find? (fun e => e.1 == id)).map Prod.snd

/-- The points in identifier order. -/
def points (c : PointsContainer) : List Point := c.entries.map Prod.snd

end PointsContainer

/-! ## Input streams

`std::ifstream` as far as `main` uses it: `open`, `fail()`, `eof()` and the
formatted extraction of a `float`.  The unread characters and the two state
bits `eofbit` and `failbit` are the whole state. -/

/-- An input file stream. -/
structure IStream where
  buf : List Char
  eofbit : Bool
  failbit : Bool
deriving DecidableEq, Repr

/-- The characters `std::isspace` accepts in the "C" locale. -/
def isspace (c : Char) : Bool :=
  c == ' ' || c == '\t' || c == '\n' || c == '\x0b' || c == '\x0c' || c == '\r'

/-- Value of a run of decimal digits. -/
def digitsVal (ds : List Char) : Nat :=
  ds.foldl (fun n c => 10 * n + (c.toNat - 48)) 0

/-- An optional sign at the front of `cs`: whether it is `-`, and the unread
characters. -/
def scanSign (cs : List Char) : Bool × List Char :=
  match cs with
  | c :: t => if c == '-' then (true, t) else if c == '+' then (false, t) else (false, c :: t)
  | [] => (false, [])

/-- An optional fraction at the front of `cs`: the digits after the `.`, and
the unread characters. -/
def scanFraction (cs : List Char) : List Char × List Char :=
  match cs with
  | c :: t => if c == '.' then t.span Char.isDigit else ([], c :: t)
  | [] => ([], [])

/-- The exponent part of a floating literal: `e` or `E`, an optional sign and
digits.  Returns the power of ten to scale by (`none` when `e` is followed by
no digit) and the unread characters. -/
def scanExponent (cs : List Char) : Option ℤ × List Char :=
  match cs with
  | c :: t =>
    if c == 'e' || c == 'E' then
      let sgn := scanSign t
      let ds := sgn.2.span Char.isDigit
      if ds.1.isEmpty then (none, ds.2)
      else (some (if sgn.1 then -(digitsVal ds.1 : ℤ) else (digitsVal ds.1 : ℤ)), ds.2)
    else (some 0, c :: t)
  | [] => (some 0, [])

/-- Scan one floating literal from the front of `cs` (no leading whitespace):
optional sign, digits, optional `.` and digits, optional exponent.  Returns
the value (`none` when the characters do not form a number) and the unread
characters. -/
def scanFloat (cs : List Char) : Option ℚ × List Char :=
  let sgn := scanSign cs
  let ip := sgn.2.span Char.isDigit
  let fp := scanFraction ip.2
  if ip.1.isEmpty && fp.1.isEmpty then (none, fp.2)
  else
    let ex := scanExponent fp.2
    match ex.1 with
    | none => (none, ex.2)
    | some e =>
      let mant : ℚ := (digitsVal (ip.1 ++ fp.1) : ℚ) / (10 : ℚ) ^ fp.1.length
      let v : ℚ := mant * (10 : ℚ) ^ e
      (some (if sgn.1 then -v else v), ex.2)

/-- The largest finite `float`, `2^128 - 2^104`. -/
def FLT_MAX : ℚ := 2 ^ 128 - 2 ^ 104

/-- A value is too large for a `float`: rounding to nearest gives an infinity,
which happens from `2^128 - 2^103` on, half a unit in the last place above
`FLT_MAX`. -/
def floatOverflow (q : ℚ) : Bool :=
  decide (2 ^ 128 - 2 ^ 103 ≤ q) || decide (q ≤ -(2 ^ 128 - 2 ^ 103))

namespace IStream

/-- Result of `open`: the stream over the file's characters, or a stream with
`failbit` set when the file could not be opened. -/
def ofOpen (content : Option (List Char)) : IStream :=
  match content with
  | some cs => ⟨cs, false, false⟩
  | none => ⟨[], false, true⟩

/-- The member `eof()`. -/
def eof (s : IStream) : Bool := s.eofbit

/-- The member `fail()`. -/
def fail (s : IStream) : Bool := s.failbit

/-- The member `good()`. -/
def good (s : IStream) : Bool := !s.eofbit && !s.failbit

/-- The extraction `s >> v` of a `float`.  A stream that is not `good()` only
gets `failbit` and the variable keeps its value; otherwise whitespace is
skipped (reaching the end sets `eofbit` and `failbit`, the variable keeps its
value), one literal is scanned and `eofbit` is set when the scan reached the
end of the file.  When no number was found, `failbit` is set and 0 is stored;
when the number is too large for a `float`, `failbit` is set and the largest
`float` of its sign is stored. -/
def readFloat (s : IStream) (v : ℚ) : IStream × ℚ :=
  if !s.good then ({ s with failbit := true }, v)
  else
    match s.buf.dropWhile isspace with
    | [] => (⟨[], true, true⟩, v)
    | c :: cs =>
      match scanFloat (c :: cs) with
      | (some q, rest) =>
        if floatOverflow q then (⟨rest, rest.isEmpty, true⟩, if q < 0 then -FLT_MAX else FLT_MAX)
        else (⟨rest, rest.isEmpty, false⟩, q)
      | (none, rest) => (⟨rest, rest.isEmpty, true⟩, 0)

/-- The extraction `s >> p` of a 2-D point: one `float` per coordinate, in
order. -/
def readPoint (s : IStream) (p : Point) : IStream × Point :=
  let r0 := s.readFloat p.x
  let r1 := r0.1.readFloat p.y
  (r1.1, ⟨r0.2, r1.2⟩)

end IStream

/-! ## The point-reading loop -/

/-- The variables of a point-reading loop of `main`. -/
structure LoadState where
  file : IStream
  point : Point
  container : PointsContainer
  pointId : Nat
deriving DecidableEq, Repr

/-- One iteration of the body of `while( !file.eof() )`: insert the point read
before, read the next one, increment the `unsigned int` identifier. -/
def loadStep (st : LoadState) : LoadState :=
  let c := st.container.InsertElement st.pointId st.point
  let r := st.file.readPoint st.point
  { file := r.1, point := r.2, container := c, pointId := (st.pointId + 1) % 2 ^ 32 }

/-- The loop `while( !file.eof() ) { ... }` run for at most `fuel` iterations.
The flag tells whether the loop was left (`eof()` became true). -/
def loadLoop : Nat → LoadState → LoadState × Bool
  | fuel, st =>
    if st.file.eof then (st, true)
    else
      match fuel with
      | 0 => (st, false)
      | n + 1 => loadLoop n (loadStep st)

/-- The whole loader: the first extraction, then the loop.  `p0` is the value
of the point variable before the first extraction. -/
def loadPoints (fuel : Nat) (file : IStream) (p0 : Point) : LoadState × Bool :=
  let r := file.readPoint p0
  loadLoop fuel { file := r.1, point := r.2, container := PointsContainer.empty, pointId := 0 }

/-! ## The objects `main` configures -/

/-- An `itk::ExceptionObject`, as far as `main` sees it: something printable. -/
structure ExceptionObject where
  description : String
deriving DecidableEq, Repr

/-- The configuration of `itk::LevenbergMarquardtOptimizer` that `main`
sets. -/
structure LevenbergMarquardtOptimizer where
  useCostFunctionGradient : Bool
  scales : List ℚ
  numberOfIterations : Nat
  valueTolerance : ℚ
  gradientTolerance : ℚ
  epsilonFunction : ℚ
deriving DecidableEq, Repr

/-- The transform `itk::TranslationTransform< double, 2 >`: its parameter
vector. -/
structure TranslationTransform where
  parameters : List ℚ
deriving DecidableEq, Repr

namespace TranslationTransform

/-- The second template argument of `TransformType`. -/
def SpaceDimension : Nat := 2

/-- Modelled from the spec: `GetNumberOfParameters` of the translation
transform (its code is not part of the example), "translation in D dimensions
has P = D". -/
def GetNumberOfParameters (_t : TranslationTransform) : Nat := SpaceDimension

/-- Modelled from the spec: `SetIdentity` of the translation transform, "the
identity parameter vector (all zeros for translation)". -/
def SetIdentity (t : TranslationTransform) : TranslationTransform :=
  { t with parameters := List.replicate t.GetNumberOfParameters 0 }

/-- A freshly created transform is the identity. -/
def New : TranslationTransform := SetIdentity ⟨[]⟩

/-- Modelled from the spec: `SetParameters` of the translation transform,
"`setParameters(vector)` fails with `DimensionMismatch` if the vector length
≠ P". -/
def SetParameters (t : TranslationTransform) (v : List ℚ) :
    Except ExceptionObject TranslationTransform :=
  if v.length = t.GetNumberOfParameters then .ok { t with parameters := v }
  else .error ⟨"DimensionMismatch"⟩

/-- The member `GetParameters`. -/
def GetParameters (t : TranslationTransform) : List ℚ := t.parameters

end TranslationTransform

/-- The state of `itk::PointSetToPointSetRegistrationMethod` that `main` sets:
the initial parameters and which components have been connected. -/
structure RegistrationMethod where
  initialTransformParameters : List ℚ
  metric : Bool
  optimizer : Bool
  transform : Bool
  fixedPointSet : Bool
  movingPointSet : Bool
deriving DecidableEq, Repr

/-- A freshly created registration method: nothing connected. -/
def RegistrationMethod.New : RegistrationMethod :=
  ⟨[], false, false, false, false, false⟩

/-- The objects of `main` that `StartRegistration` can reach through the
registration method. -/
structure Objects where
  fixedPointSet : PointsContainer
  movingPointSet : PointsContainer
  transform : TranslationTransform
  optimizer : LevenbergMarquardtOptimizer
  registration : RegistrationMethod
deriving DecidableEq, Repr

/-- A parameter vector under construction, `ParametersType parameters( n )`:
`n` entries, none of them assigned yet. -/
def newParameters (n : Nat) : List (Option ℚ) := List.replicate n none

/-- The assignment `parameters[k] = x`; `none` when `k` is not an index of the
vector. -/
def putParameter (v : List (Option ℚ)) (k : Nat) (x : ℚ) : Option (List (Option ℚ)) :=
  if k < v.length then some (v.set k (some x)) else none

/-- The loop `for( unsigned int k = 0; k < 2; k++ ) parameters[k] = 10.0;`. -/
def initParameters (v : List (Option ℚ)) : Option (List (Option ℚ)) :=
  (List.range 2).foldlM (fun w k => putParameter w k 10) v

/-- The values of a parameter vector; `none` when an entry was never
assigned. -/
def parameterValues : List (Option ℚ) → Option (List ℚ)
  | [] => some []
  | none :: _ => none
  | some x :: t => (parameterValues t).map (fun r => x :: r)

/-! ## The program -/

/-- What lies outside `main`: the files, the library defaults and the
registration engine. -/
structure Env where
  /-- Content of the file `ifstream::open` finds under a path at the `n`-th
  call of `open` (`n = 0, 1`); `none` when it cannot be opened. -/
  openFile : Nat → String → Option (List Char)
  /-- Value of a default-constructed point variable. -/
  uninitialized : Point
  /-- A default-constructed optimizer. -/
  newOptimizer : LevenbergMarquardtOptimizer
  /-- The call `registration->StartRegistration()` on the objects as they are at
  the call: the exception it throws, or the parameters it leaves in the
  transform. -/
  StartRegistration : Objects → Except ExceptionObject (List ℚ)

/-- One item written to `std::cout` or `std::cerr`. -/
inductive Line where
  | text (s : String)
  | count (label : String) (n : Nat)
  | exception (e : ExceptionObject)
  | parameters (label : String) (p : List ℚ)
deriving DecidableEq, Repr

/-- How a run of `main` ends: it returns a code, it is still inside a
point-reading loop when the fuel is used up, it writes outside the parameter
vector or uses an entry never assigned, or an exception leaves `main`. -/
inductive Exit where
  | returned (code : Nat)
  | running
  | undefinedBehaviour
  | uncaught (e : ExceptionObject)
deriving DecidableEq, Repr

/-- The value of `EXIT_SUCCESS`. -/
def EXIT_SUCCESS : Nat := 0

/-- The value of `EXIT_FAILURE`. -/
def EXIT_FAILURE : Nat := 1

/-- What a run of `main` did. -/
structure Run where
  exit : Exit
  cerr : List Line
  cout : List Line
  /-- The paths passed to `open`, in order. -/
  opened : List String
  fixedPoints : PointsContainer
  movingPoints : PointsContainer
  /-- The objects at the call of `StartRegistration`, if it was called. -/
  started : Option Objects
  /-- The optimizer when `main` ends, if one was created. -/
  optimizer : Option LevenbergMarquardtOptimizer
deriving DecidableEq, Repr

/-- The two lines of the usage message. -/
def usageMessage : List Line :=
  [.text "Arguments Missing. ",
   .text "Usage:  IterativeClosestPoint1   fixedPointsFile  movingPointsFile "]

/-- The two lines printed when a file cannot be opened; `name` is the name
printed. -/
def openError (name : String) : List Line :=
  [.text "Error opening points file with name : ", .text name]

/-- The part of `main` from "Set up the Metric" to the end, entered with both
point sets loaded and `cout` as written so far. -/
def register (env : Env) (opened : List String) (cout : List Line)
    (fixedPointSet movingPointSet : PointsContainer) : Run :=
  let transform := TranslationTransform.New
  let optimizer := env.newOptimizer
  let optimizer := { optimizer with useCostFunctionGradient := false }
  let registration := RegistrationMethod.New
  let scales : List ℚ := List.replicate transform.GetNumberOfParameters 1
  let numberOfIterations : Nat := 1000
  let gradientTolerance : ℚ := 1 / 10
  let valueTolerance : ℚ := 1 / 10
  let epsilonFunction : ℚ := 1 / 10 ^ 9
  let optimizer := { optimizer with scales := scales }
  let optimizer := { optimizer with numberOfIterations := numberOfIterations }
  let optimizer := { optimizer with valueTolerance := valueTolerance }
  let optimizer := { optimizer with gradientTolerance := gradientTolerance }
  let optimizer := { optimizer with epsilonFunction := epsilonFunction }
  let transform := transform.SetIdentity
  let registration :=
    { registration with initialTransformParameters := transform.GetParameters }
  let registration := { registration with metric := true }
  let registration := { registration with optimizer := true }
  let registration := { registration with transform := true }
  let registration := { registration with fixedPointSet := true }
  let registration := { registration with movingPointSet := true }
  let stop (e : Exit) : Run :=
    { exit := e, cerr := [], cout := cout, opened := opened,
      fixedPoints := fixedPointSet, movingPoints := movingPointSet,
      started := none, optimizer := some optimizer }
  match initParameters (newParameters transform.GetNumberOfParameters) with
  | none => stop .undefinedBehaviour
  | some parameters =>
    match parameterValues parameters with
    | none => stop .undefinedBehaviour
    | some values =>
      match transform.SetParameters values with
      | .error e => stop (.uncaught e)
      | .ok transform =>
        let registration :=
          { registration with initialTransformParameters := transform.GetParameters }
        let objects : Objects :=
          { fixedPointSet := fixedPointSet, movingPointSet := movingPointSet,
            transform := transform, optimizer := optimizer, registration := registration }
        match env.StartRegistration objects with
        | .error e =>
          { exit := .returned EXIT_FAILURE, cerr := [], cout := cout ++ [.exception e],
            opened := opened, fixedPoints := fixedPointSet, movingPoints := movingPointSet,
            started := some objects, optimizer := some optimizer }
        | .ok solution =>
          { exit := .returned EXIT_SUCCESS, cerr := [],
            cout := cout ++ [.parameters "Solution = " solution],
            opened := opened, fixedPoints := fixedPointSet, movingPoints := movingPointSet,
            started := some objects, optimizer := some optimizer }

/-- The function `main`.  `argv` is the argument vector (`argc` is its length,
`argv[0]` the program name); `fuel` bounds the iterations of each of the two
point-reading loops. -/
def main (fuel : Nat) (argv : List String) (env : Env) : Run :=
  let argc := argv.length
  if argc < 3 then
    { exit := .returned 1, cerr := usageMessage, cout := [], opened := [],
      fixedPoints := PointsContainer.empty, movingPoints := PointsContainer.empty,
      started := none, optimizer := none }
  else
    let argv1 := argv.getD 1 ""
    let argv2 := argv.getD 2 ""
    let fixedFile := IStream.ofOpen (env.openFile 0 argv1)
    if fixedFile.fail then
      { exit := .returned 2, cerr := openError argv1, cout := [], opened := [argv1],
        fixedPoints := PointsContainer.empty, movingPoints := PointsContainer.empty,
        started := none, optimizer := none }
    else
      let fixed := loadPoints fuel fixedFile env.uninitialized
      if !fixed.2 then
        { exit := .running, cerr := [], cout := [], opened := [argv1],
          fixedPoints := fixed.1.container, movingPoints := PointsContainer.empty,
          started := none, optimizer := none }
      else
        let fixedPointSet := fixed.1.container
        let cout := [Line.count "Number of fixed Points = " fixedPointSet.GetNumberOfPoints]
        let movingFile := IStream.ofOpen (env.openFile 1 argv1)
        if movingFile.fail then
          { exit := .returned 2, cerr := openError argv2, cout := cout,
            opened := [argv1, argv1],
            fixedPoints := fixedPointSet, movingPoints := PointsContainer.empty,
            started := none, optimizer := none }
        else
          let moving := loadPoints fuel movingFile env.uninitialized
          if !moving.2 then
            { exit := .running, cerr := [], cout := cout, opened := [argv1, argv1],
              fixedPoints := fixedPointSet, movingPoints := moving.1.container,
              started := none, optimizer := none }
          else
            let movingPointSet := moving.1.container
            let cout := cout ++
              [Line.count "Number of moving Points = " movingPointSet.GetNumberOfPoints]
            register env [argv1, argv1] cout fixedPointSet movingPointSet

/-! ## The registration engine

The metric, the Levenberg-Marquardt optimizer and the registration driver are
library code that the example only calls.  They are modelled from the spec
(§4.2 to §4.5) for the instance the example builds: points of dimension 2 and
the translation transform with 2 parameters.  The spec fixes neither the
initial damping factor, nor the factors by which it grows and shrinks, nor the
retry cap; they are the parameter `Damping`.  Norms are compared through their
squares. -/

/-- Modelled from the spec: `apply` of the translation transform, "simple
vector addition of the parameter vector to the point". -/
def TransformPoint (x : ℚ × ℚ) (p : Point) : Point := ⟨p.x + x.1, p.y + x.2⟩

/-- Modelled from the spec: the Jacobian of the translation transform, "the
identity matrix (each parameter affects exactly one output coordinate, unit
sensitivity) independent of the input point".  One row per output
coordinate. -/
def Jacobian (_x : ℚ × ℚ) (_p : Point) : (ℚ × ℚ) × (ℚ × ℚ) := ((1, 0), (0, 1))

/-- Squared Euclidean distance of two points. -/
def squaredDistance (a b : Point) : ℚ := (a.x - b.x) ^ 2 + (a.y - b.y) ^ 2

/-- Modelled from the spec: the full nearest-neighbour scan of §4.3 step 2 over
the fixed points in identifier order; `best` is the closest point so far and
is replaced only by a strictly closer one ("ties broken by lowest fixed-point
identifier"). -/
def closestFrom (q : Point) : Point → List Point → Point
  | best, [] => best
  | best, f :: fs =>
    closestFrom q (if squaredDistance f q < squaredDistance best q then f else best) fs

/-- One scalar residual component with its derivative with respect to the two
parameters. -/
structure ResidualRow where
  value : ℚ
  d0 : ℚ
  d1 : ℚ
deriving DecidableEq, Repr

/-- Modelled from the spec: one metric evaluation (§4.3 steps 1 to 4) at the
parameters `x`, against the non-empty fixed set `f :: fs`: two residual
components per moving point, the transformed point minus its matched fixed
point, each with the row of the transform's Jacobian. -/
def residualRows (f : Point) (fs moving : List Point) (x : ℚ × ℚ) : List ResidualRow :=
  moving.flatMap fun m =>
    let q := TransformPoint x m
    let c := closestFrom q f fs
    let J := Jacobian x m
    [⟨q.x - c.x, J.1.1, J.1.2⟩, ⟨q.y - c.y, J.2.1, J.2.2⟩]

/-- Modelled from the spec: the aggregate cost of §4.3 step 5, "the sum of
squared residual components". -/
def aggregateCost (rows : List ResidualRow) : ℚ := (rows.map fun r => r.value ^ 2).sum

/-- The gradient `Jᵗr` of §4.4 step 2. -/
def gradient (rows : List ResidualRow) : ℚ × ℚ :=
  ((rows.map fun r => r.d0 * r.value).sum, (rows.map fun r => r.d1 * r.value).sum)

/-- The Gauss-Newton approximate Hessian `JᵗJ` of §4.4 step 2, as its entries
(0,0), (0,1) and (1,1). -/
def hessian (rows : List ResidualRow) : ℚ × ℚ × ℚ :=
  ((rows.map fun r => r.d0 * r.d0).sum, (rows.map fun r => r.d0 * r.d1).sum,
   (rows.map fun r => r.d1 * r.d1).sum)

/-- Squared Euclidean norm of a pair. -/
def normSq (v : ℚ × ℚ) : ℚ := v.1 ^ 2 + v.2 ^ 2

/-- Modelled from the spec: §4.4 step 3, the solution `Δ` of the damped normal
equations `(JᵗJ + λ·diag(JᵗJ)) · Δ = -Jᵗr` by Cramer's rule; `none` when the
system is singular. -/
def solveDamped (rows : List ResidualRow) (lam : ℚ) : Option (ℚ × ℚ) :=
  let A := hessian rows
  let g := gradient rows
  let m00 := A.1 + lam * A.1
  let m01 := A.2.1
  let m11 := A.2.2 + lam * A.2.2
  let det := m00 * m11 - m01 * m01
  if det = 0 then none
  else some ((-g.1 * m11 + m01 * g.2) / det, (-m00 * g.2 + g.1 * m01) / det)

/-- The damping schedule, which the spec leaves open: the initial damping
factor, the factors applied to it after a rejected and after an accepted step,
and the retry cap of one iteration. -/
structure Damping where
  initial : ℚ
  increase : ℚ
  decrease : ℚ
  retries : Nat
deriving DecidableEq, Repr

/-- The terminal states of §4.4. -/
inductive TerminalState where
  | Converged
  | MaxIterationsReached
  | Failed
deriving DecidableEq, Repr

/-- The error kinds of §7. -/
inductive ErrorKind where
  | EmptyPointSet
  | DimensionMismatch
  | SingularSystem
deriving DecidableEq, Repr

/-- The result of a registration run: "the final parameter vector and the
terminal state", with the error kind when the state is `Failed`. -/
structure Result where
  state : TerminalState
  parameters : ℚ × ℚ
  error : Option ErrorKind
deriving DecidableEq, Repr

/-- Outcome of one trial step. -/
inductive Trial where
  | accepted (x : ℚ × ℚ) (step : ℚ × ℚ)
  | rejected
  | singular
deriving DecidableEq, Repr

/-- Outcome of the step search of one iteration. -/
inductive Attempt where
  | accepted (x : ℚ × ℚ) (step : ℚ × ℚ) (lam : ℚ)
  | rejected (lam : ℚ)
  | singular
deriving DecidableEq, Repr

/-- Modelled from the spec: §4.4 steps 3 to 5 at the parameters `x` with
residual rows `rows` and damping factor `lam`: solve the damped normal
equations, tentatively apply the step, re-evaluate the cost and accept the
step when the cost decreased. -/
def trialStep (f : Point) (fs moving : List Point) (x : ℚ × ℚ) (rows : List ResidualRow)
    (lam : ℚ) : Trial :=
  match solveDamped rows lam with
  | none => .singular
  | some step =>
    let x1 : ℚ × ℚ := (x.1 + step.1, x.2 + step.2)
    if aggregateCost (residualRows f fs moving x1) < aggregateCost rows then .accepted x1 step
    else .rejected

/-- Modelled from the spec: §4.4 steps 5 and 6: an accepted step decreases the
damping factor; otherwise the damping factor is increased and the step is
retried, at most `retries` more times. -/
def attemptStep (d : Damping) (f : Point) (fs moving : List Point) (x : ℚ × ℚ)
    (rows : List ResidualRow) : Nat → ℚ → Attempt
  | 0, lam =>
    match trialStep f fs moving x rows lam with
    | .accepted x1 step => .accepted x1 step (lam * d.decrease)
    | .rejected => .rejected (lam * d.increase)
    | .singular => .singular
  | n + 1, lam =>
    match trialStep f fs moving x rows lam with
    | .accepted x1 step => .accepted x1 step (lam * d.decrease)
    | .rejected => attemptStep d f fs moving x rows n (lam * d.increase)
    | .singular => attemptStep d f fs moving x rows n (lam * d.increase)

/-- Modelled from the spec: the optimizer loop of §4.4 with `remaining`
iterations left.  It stops converged when the gradient norm is at most the
gradient tolerance, or after an accepted step whose relative cost decrease is
at most the value tolerance or whose norm is below epsilon; it stops exhausted
when no iteration is left, and failed when the system stays singular. -/
def iterate (opt : LevenbergMarquardtOptimizer) (d : Damping) (f : Point)
    (fs moving : List Point) : Nat → ℚ × ℚ → ℚ → Result
  | remaining, x, lam =>
    let rows := residualRows f fs moving x
    if 0 ≤ opt.gradientTolerance ∧ normSq (gradient rows) ≤ opt.gradientTolerance ^ 2 then
      ⟨.Converged, x, none⟩
    else
      match remaining with
      | 0 => ⟨.MaxIterationsReached, x, none⟩
      | n + 1 =>
        match attemptStep d f fs moving x rows d.retries lam with
        | .singular => ⟨.Failed, x, some .SingularSystem⟩
        | .rejected lam1 => iterate opt d f fs moving n x lam1
        | .accepted x1 step lam1 =>
          let c0 := aggregateCost rows
          let c1 := aggregateCost (residualRows f fs moving x1)
          if c0 - c1 ≤ opt.valueTolerance * c0 ∨
              (0 < opt.epsilonFunction ∧ normSq step < opt.epsilonFunction ^ 2) then
            ⟨.Converged, x1, none⟩
          else iterate opt d f fs moving n x1 lam1

/-- Modelled from the spec: `run()` of the registration driver (§4.5), with
"`EmptyPointSet` (either set has zero points — fatal, reported before any
iteration)". -/
def run (opt : LevenbergMarquardtOptimizer) (d : Damping) (fixed moving : List Point)
    (initial : ℚ × ℚ) : Result :=
  match fixed, moving with
  | [], _ => ⟨.Failed, initial, some .EmptyPointSet⟩
  | _ :: _, [] => ⟨.Failed, initial, some .EmptyPointSet⟩
  | f :: fs, m :: ms => iterate opt d f fs (m :: ms) opt.numberOfIterations initial d.initial

/-- The aggregate cost of registering `moving` onto `fixed` at the parameters
`x` (0 when there is no fixed point to match). -/
def costAt (fixed moving : List Point) (x : ℚ × ℚ) : ℚ :=
  match fixed with
  | [] => 0
  | f :: fs => aggregateCost (residualRows f fs moving x)

/-- The call `StartRegistration` served by the modelled engine: it runs from
the initial parameters held by the registration method, throws on a failed
run and otherwise leaves the final parameters in the transform. -/
def StartRegistration (d : Damping) (o : Objects) : Except ExceptionObject (List ℚ) :=
  match o.registration.initialTransformParameters with
  | [a, b] =>
    let r := run o.optimizer d o.fixedPointSet.points o.movingPointSet.points (a, b)
    match r.error with
    | some .EmptyPointSet => .error ⟨"EmptyPointSet"⟩
    | some .DimensionMismatch => .error ⟨"DimensionMismatch"⟩
    | some .SingularSystem => .error ⟨"SingularSystem"⟩
    | none => .ok [r.parameters.1, r.parameters.2]
  | _ => .error ⟨"DimensionMismatch"⟩

/-! ## Concrete inputs used below -/

/-- A file system holding the given files at every call of `open`, a zero
point variable, a default optimizer that differs from the configured one in
every field, and a registration engine that leaves the transform as it finds
it. -/
def envOf (files : List (String × String)) : Env :=
  { openFile := fun _ path => (files.lookup path).map String.toList
    uninitialized := ⟨0, 0⟩
    newOptimizer := ⟨true, [], 2000, 1 / 10 ^ 8, 1 / 10 ^ 5, 1 / 10 ^ 11⟩
    StartRegistration := fun o => .ok o.transform.GetParameters }

/-- The configuration of the optimizer that `main` sets up. -/
def configuredOptimizer : LevenbergMarquardtOptimizer :=
  { useCostFunctionGradient := false
    scales := [1, 1]
    numberOfIterations := 1000
    valueTolerance := 1 / 10
    gradientTolerance := 1 / 10
    epsilonFunction := 1 / 10 ^ 9 }

/-- A file system in which `fixed.txt` (one point) is there at the first call
of `open` and gone at the second. -/
def envVanishing : Env :=
  { envOf [] with
    openFile := fun n path =>
      if n = 0 ∧ path = "fixed.txt" then some "0 0\n".toList else none }

/-- A damping schedule: start at 1/1000, multiply by 10 after a rejected step
and by 1/10 after an accepted one, at most 10 retries. -/
def damping0 : Damping := ⟨1 / 1000, 10, 1 / 10, 10⟩

/-- The environment `envOf files` with the modelled engine behind
`StartRegistration`. -/
def envWithEngine (d : Damping) (files : List (String × String)) : Env :=
  { envOf files with StartRegistration := StartRegistration d }

/-- Three collinear, equally spaced points. -/
def collinear : List Point := [⟨0, 0⟩, ⟨10, 10⟩, ⟨20, 20⟩]

/-- The file of the collinear points, one point per line. -/
def collinearFiles : List (String × String) := [("p.txt", "0 0\n10 10\n20 20\n")]

/-- An invocation that names the file of the collinear points twice. -/
def collinearArgs : List String := ["IterativeClosestPoint1", "p.txt", "p.txt"]

/-- The objects at the call of `StartRegistration`, for given point sets. -/
def objectsAtStart (f m : PointsContainer) : Objects :=
  { fixedPointSet := f
    movingPointSet := m
    transform := ⟨[10, 10]⟩
    optimizer := configuredOptimizer
    registration := ⟨[10, 10], true, true, true, true, true⟩ }

/-- The part of the diagonal on which the collinear example stays: both
parameters equal, between 20/3 and 10. -/
def stuck (x : ℚ × ℚ) : Prop := x.1 = x.2 ∧ 20 / 3 ≤ x.1 ∧ x.1 ≤ 10

instance (x : ℚ × ℚ) : Decidable (stuck x) := by
  unfold stuck
  infer_instance

/-- An outcome of the step search that keeps the parameters on `stuck` and the
damping factor non-negative. -/
def Attempt.keeps : Attempt → Prop
  | .accepted x _ lam => stuck x ∧ 0 ≤ lam
  | .rejected lam => 0 ≤ lam
  | .singular => False

/-! ## Files of well-formed lines -/

/-- A character that cannot continue a number. -/
def neutral (w : Char) : Prop :=
  w.isDigit = false ∧ w ≠ '.' ∧ w ≠ 'e' ∧ w ≠ 'E' ∧ w ≠ '+' ∧ w ≠ '-'

/-- One line of a points file: the two coordinate tokens separated by a blank
and ended by a newline. -/
def renderLine (l : List Char × List Char × Point) : List Char :=
  l.1 ++ ' ' :: (l.2.1 ++ ['\n'])

/-- A points file of one line per point. -/
def renderFile (ls : List (List Char × List Char × Point)) : List Char :=
  ls.flatMap renderLine

/-- The two tokens of a line are numbers in the range of `float`, with the
coordinates of its point as values. -/
def wellFormedLine (l : List Char × List Char × Point) : Prop :=
  (scanFloat l.1 = (some l.2.2.x, []) ∧ floatOverflow l.2.2.x = false) ∧
  (scanFloat l.2.1 = (some l.2.2.y, []) ∧ floatOverflow l.2.2.y = false)

instance (l : List Char × List Char × Point) : Decidable (wellFormedLine l) := by
  unfold wellFormedLine
  infer_instance

/-! ## Facts about the loader and `main` -/

/-- A point extraction from a stream with `failbit` set and `eofbit` clear
changes neither the stream nor the point. -/
theorem readPoint_failed (s : IStream) (p : Point) (hf : s.failbit = true)
    (he : s.eofbit = false) : s.readPoint p = (s, p) := by
  obtain ⟨buf, e, f⟩ := s
  simp only at hf he
  subst hf he
  simp [IStream.readPoint, IStream.readFloat, IStream.good]

/-- Once `failbit` is set while `eofbit` is clear, the loop is never left. -/
theorem loadLoop_failed (n : Nat) (st : LoadState) (hf : st.file.failbit = true)
    (he : st.file.eofbit = false) : (loadLoop n st).2 = false := by
  induction n generalizing st with
  | zero => simp [loadLoop, IStream.eof, he]
  | succ n ih =>
    have hs : (loadStep st).file = st.file := by
      simp [loadStep, readPoint_failed st.file st.point hf he]
    rw [loadLoop]
    simp only [IStream.eof, he, Bool.false_eq_true, if_false]
    exact ih (loadStep st) (by rw [hs]; exact hf) (by rw [hs]; exact he)

/-- A span over a list followed by a character that fails the test stops where
it stops on the list alone. -/
theorem span_append_stop (p : Char → Bool) (l : List Char) (w : Char) (r : List Char)
    (hw : p w = false) :
    (l ++ w :: r).span p = ((l.span p).1, (l.span p).2 ++ w :: r) := by
  simp only [List.span_eq_take_drop]
  induction l with
  | nil => simp [List.takeWhile, List.dropWhile, hw]
  | cons c t ih =>
    simp only [List.cons_append, List.takeWhile_cons, List.dropWhile_cons]
    cases hc : p c
    · simp
    · simp only [Prod.mk.injEq] at ih
      simp [ih.1, ih.2]

/-- A neutral character after the input does not change the sign scan. -/
theorem scanSign_append (cs : List Char) (w : Char) (r : List Char) (hw : neutral w) :
    scanSign (cs ++ w :: r) = ((scanSign cs).1, (scanSign cs).2 ++ w :: r) := by
  obtain ⟨-, -, -, -, hp, hm⟩ := hw
  cases cs with
  | nil => simp [scanSign, hp, hm]
  | cons c t =>
    simp only [List.cons_append, scanSign]
    split_ifs <;> simp

/-- A neutral character after the input does not change the fraction scan. -/
theorem scanFraction_append (cs : List Char) (w : Char) (r : List Char) (hw : neutral w) :
    scanFraction (cs ++ w :: r) = ((scanFraction cs).1, (scanFraction cs).2 ++ w :: r) := by
  obtain ⟨hd, hdot, -, -, -, -⟩ := hw
  cases cs with
  | nil => simp [scanFraction, hdot]
  | cons c t =>
    simp only [List.cons_append, scanFraction]
    split_ifs
    · exact span_append_stop _ t w r hd
    · simp

/-- A neutral character after the input does not change the exponent scan. -/
theorem scanExponent_append (cs : List Char) (w : Char) (r : List Char) (hw : neutral w) :
    scanExponent (cs ++ w :: r) = ((scanExponent cs).1, (scanExponent cs).2 ++ w :: r) := by
  have hw' := hw
  obtain ⟨hd, -, he, hE, -, -⟩ := hw
  cases cs with
  | nil => simp [scanExponent, he, hE]
  | cons c t =>
    simp only [List.cons_append, scanExponent, scanSign_append t w r hw',
      span_append_stop _ _ w r hd]
    split_ifs <;> rfl

/-- A neutral character after the input does not change the scan of a number:
the same value is found and the added characters are left unread. -/
theorem scanFloat_append (cs : List Char) (w : Char) (r : List Char) (hw : neutral w) :
    scanFloat (cs ++ w :: r) = ((scanFloat cs).1, (scanFloat cs).2 ++ w :: r) := by
  have hd := hw.1
  unfold scanFloat
  simp only [scanSign_append cs w r hw, span_append_stop _ _ w r hd,
    scanFraction_append _ w r hw, scanExponent_append _ w r hw]
  generalize (scanExponent (scanFraction ((scanSign cs).2.span Char.isDigit).2).2).1 = e
  split_ifs
  all_goals first | rfl | (cases e <;> rfl)


/-- Whitespace cannot continue a number. -/
theorem neutral_of_isspace (w : Char) (h : isspace w = true) : neutral w := by
  simp only [isspace, Bool.or_eq_true, beq_iff_eq] at h
  rcases h with ((((rfl | rfl) | rfl) | rfl) | rfl) | rfl <;> (unfold neutral; decide)

/-- Input that starts with neither a sign, a digit nor a point is not a
number. -/
theorem scanFloat_not_number (c : Char) (t : List Char) (hd : c.isDigit = false)
    (hdot : c ≠ '.') (hp : c ≠ '+') (hm : c ≠ '-') : (scanFloat (c :: t)).1 = none := by
  have h1 : scanSign (c :: t) = (false, c :: t) := by simp [scanSign, hp, hm]
  have h2 : (c :: t).span Char.isDigit = ([], c :: t) := by
    simp [List.span_eq_take_drop, List.takeWhile, List.dropWhile, hd]
  have h3 : scanFraction (c :: t) = ([], c :: t) := by simp [scanFraction, hdot]
  unfold scanFloat
  simp only [h1, h2, h3]
  simp

/-- A number does not start with whitespace. -/
theorem scanFloat_head (cs : List Char) (v : ℚ) (r : List Char)
    (h : scanFloat cs = (some v, r)) : ∃ c t, cs = c :: t ∧ isspace c = false := by
  cases cs with
  | nil => simp [scanFloat, scanSign, scanFraction, List.span_eq_take_drop] at h
  | cons c t =>
    refine ⟨c, t, rfl, ?_⟩
    by_contra hc
    have hs : isspace c = true := by simpa using hc
    obtain ⟨hd, hdot, -, -, hp, hm⟩ := neutral_of_isspace c hs
    have := scanFloat_not_number c t hd hdot hp hm
    rw [h] at this
    simp at this

/-- Extraction of a number token that is followed by whitespace, possibly
after one whitespace character: the value is stored and the stream stays
good, standing at the whitespace after the token. -/
theorem readFloat_token (ws tok : List Char) (v old : ℚ) (w : Char) (r : List Char)
    (hws : ∀ c ∈ ws, isspace c = true) (htok : scanFloat tok = (some v, []))
    (hv : floatOverflow v = false) (hw : isspace w = true) :
    IStream.readFloat ⟨ws ++ (tok ++ w :: r), false, false⟩ old
      = (⟨w :: r, false, false⟩, v) := by
  obtain ⟨c, t, rfl, hc⟩ := scanFloat_head tok v [] htok
  have hdrop : (ws ++ c :: (t ++ w :: r)).dropWhile isspace = c :: (t ++ w :: r) := by
    induction ws with
    | nil => simp [List.dropWhile, hc]
    | cons a as ih =>
      have ha : isspace a = true := hws a (List.mem_cons_self _ _)
      simp only [List.cons_append, List.dropWhile_cons, ha, if_true]
      exact ih (fun c hc => hws c (List.mem_cons_of_mem _ hc))
  have hscan : scanFloat (c :: (t ++ w :: r)) = (some v, w :: r) := by
    have := scanFloat_append (c :: t) w r (neutral_of_isspace w hw)
    rw [htok] at this
    simpa using this
  simp only [IStream.readFloat, IStream.good, List.cons_append, Bool.not_false, Bool.and_self,
    Bool.not_true, Bool.false_eq_true, if_false]
  rw [hdrop]
  simp only [hscan, hv]
  simp


/-- Extraction of the point of a well-formed line, possibly after one
whitespace character: the stream stays good and stands at the newline that
ends the line. -/
theorem readPoint_line (ws : List Char) (l : List Char × List Char × Point)
    (r : List Char) (p : Point) (hws : ∀ c ∈ ws, isspace c = true) (hl : wellFormedLine l) :
    IStream.readPoint ⟨ws ++ (renderLine l ++ r), false, false⟩ p
      = (⟨'\n' :: r, false, false⟩, l.2.2) := by
  obtain ⟨tx, ty, q⟩ := l
  obtain ⟨⟨hx, hvx⟩, ⟨hy, hvy⟩⟩ := hl
  simp only at hx hy hvx hvy
  have e1 : ws ++ (renderLine (tx, ty, q) ++ r) = ws ++ (tx ++ ' ' :: (ty ++ '\n' :: r)) := by
    simp [renderLine]
  have h1 := readFloat_token ws tx q.x p.x ' ' (ty ++ '\n' :: r) hws hx hvx (by decide)
  have h2 := readFloat_token [' '] ty q.y p.y '\n' r (by simp; decide) hy hvy (by decide)
  simp only [List.singleton_append] at h2
  simp only [IStream.readPoint, e1, h1, h2]

/-- Extraction of a point when only whitespace is left: both state bits are
set and the point keeps its value. -/
theorem readPoint_end (ws : List Char) (p : Point) (hws : ∀ c ∈ ws, isspace c = true) :
    IStream.readPoint ⟨ws, false, false⟩ p = (⟨[], true, true⟩, p) := by
  have hdrop : ws.dropWhile isspace = [] := by
    induction ws with
    | nil => rfl
    | cons a as ih =>
      have ha : isspace a = true := hws a (List.mem_cons_self _ _)
      simp only [List.dropWhile_cons, ha, if_true]
      exact ih (fun c hc => hws c (List.mem_cons_of_mem _ hc))
  simp [IStream.readPoint, IStream.readFloat, IStream.good, hdrop]

/-- Inserting an identifier larger than all present ones appends the entry. -/
theorem insertEntry_last (k : Nat) (p : Point) (es : List (Nat × Point))
    (h : ∀ e ∈ es, e.1 < k) : insertEntry k p es = es ++ [(k, p)] := by
  induction es with
  | nil => rfl
  | cons e t ih =>
    have he : e.1 < k := h e (List.mem_cons_self _ _)
    have h1 : ¬ k < e.1 := by omega
    have h2 : ¬ k = e.1 := by omega
    simp only [insertEntry, h1, h2, if_false, List.cons_append]
    rw [ih (fun a ha => h a (List.mem_cons_of_mem _ ha))]

/-- The loop on the rest of a file of well-formed lines, entered after a point
has been read and the stream stands at the newline of its line: every point
is inserted, under consecutive identifiers. -/
theorem loadLoop_lines (ls : List (List Char × List Char × Point)) (es : List (Nat × Point))
    (pt : Point) (k : Nat) (hls : ∀ l ∈ ls, wellFormedLine l) (hes : ∀ e ∈ es, e.1 < k)
    (hk : k + ls.length < 2 ^ 32) :
    (loadLoop (ls.length + 1)
        ⟨⟨'\n' :: renderFile ls, false, false⟩, pt, ⟨es⟩, k⟩).2 = true ∧
    (loadLoop (ls.length + 1)
        ⟨⟨'\n' :: renderFile ls, false, false⟩, pt, ⟨es⟩, k⟩).1.container.entries
      = es ++ (k, pt) :: (ls.map fun l => l.2.2).enumFrom (k + 1) := by
  induction ls generalizing es pt k with
  | nil =>
    have hr := readPoint_end ['\n'] pt (by simp; decide)
    simp only [List.length_nil, Nat.zero_add, renderFile, List.flatMap_nil, loadLoop, loadStep,
      IStream.eof, hr, PointsContainer.InsertElement, insertEntry_last k pt es hes,
      Bool.false_eq_true, if_false, if_true, List.map_nil, List.enumFrom_nil, and_self]
  | cons l ls ih =>
    have hl : wellFormedLine l := hls l (List.mem_cons_self _ _)
    have hr := readPoint_line ['\n'] l (renderFile ls) pt (by simp; decide) hl
    simp only [List.singleton_append] at hr
    have hf : renderFile (l :: ls) = renderLine l ++ renderFile ls := by
      simp [renderFile]
    have hlen : k + 1 + ls.length < 2 ^ 32 := by
      simp only [List.length_cons] at hk
      omega
    have hmod : (k + 1) % 2 ^ 32 = k + 1 := Nat.mod_eq_of_lt (by omega)
    have hes' : ∀ e ∈ es ++ [(k, pt)], e.1 < k + 1 := by
      intro e he
      rcases List.mem_append.mp he with he | he
      · exact Nat.lt_succ_of_lt (hes e he)
      · simp only [List.mem_singleton] at he
        subst he
        exact Nat.lt_succ_self _
    obtain ⟨h1, h2⟩ := ih (es ++ [(k, pt)]) l.2.2 (k + 1)
      (fun a ha => hls a (List.mem_cons_of_mem _ ha)) hes' hlen
    rw [List.length_cons, loadLoop]
    simp only [IStream.eof, Bool.false_eq_true, if_false, loadStep, hf, hr,
      PointsContainer.InsertElement, insertEntry_last k pt es hes, hmod]
    refine ⟨h1, ?_⟩
    rw [h2]
    simp [List.enumFrom_cons]

/-- A file of `N` well-formed lines, each ended by a newline: the loader
leaves its loop and has inserted exactly the `N` points, identifier `i`
holding the point of line `i`. -/
theorem loadPoints_lines (ls : List (List Char × List Char × Point)) (p0 : Point)
    (hls : ∀ l ∈ ls, wellFormedLine l) (hN : ls.length < 2 ^ 32) :
    (loadPoints ls.length (IStream.ofOpen (some (renderFile ls))) p0).2 = true ∧
    (loadPoints ls.length (IStream.ofOpen (some (renderFile ls))) p0).1.container.entries
      = (ls.map fun l => l.2.2).enum ∧
    (loadPoints ls.length
      (IStream.ofOpen (some (renderFile ls))) p0).1.container.GetNumberOfPoints = ls.length := by
  cases ls with
  | nil =>
    have hr := readPoint_end [] p0 (by simp)
    simp [loadPoints, IStream.ofOpen, renderFile, hr, loadLoop, IStream.eof,
      PointsContainer.empty, PointsContainer.GetNumberOfPoints, List.enum]
  | cons l ls =>
    have hl : wellFormedLine l := hls l (List.mem_cons_self _ _)
    have hr := readPoint_line [] l (renderFile ls) p0 (by simp) hl
    simp only [List.nil_append] at hr
    have hf : renderFile (l :: ls) = renderLine l ++ renderFile ls := by
      simp [renderFile]
    have hlen : 0 + ls.length < 2 ^ 32 := by
      simp only [List.length_cons] at hN
      omega
    obtain ⟨h1, h2⟩ := loadLoop_lines ls [] l.2.2 0
      (fun a ha => hls a (List.mem_cons_of_mem _ ha)) (by simp) hlen
    simp only [loadPoints, IStream.ofOpen, hf, hr, List.length_cons, PointsContainer.empty,
      PointsContainer.GetNumberOfPoints]
    refine ⟨h1, ?_, ?_⟩
    · rw [h2]
      simp [List.enum, List.enumFrom_cons]
    · rw [h2]
      simp

/-- The theorem `loadPoints_lines` applied to a file of two lines. -/
theorem loadPoints_lines_example :
    renderFile [("1".toList, "2".toList, ⟨1, 2⟩), ("3.5".toList, "-4e1".toList, ⟨7 / 2, -40⟩)]
      = "1 2\n3.5 -4e1\n".toList ∧
    (loadPoints 2 (IStream.ofOpen (some (renderFile
      [("1".toList, "2".toList, ⟨1, 2⟩), ("3.5".toList, "-4e1".toList, ⟨7 / 2, -40⟩)])))
      ⟨0, 0⟩).1.container.entries = [(0, ⟨1, 2⟩), (1, ⟨7 / 2, -40⟩)] :=
  ⟨by decide,
   (loadPoints_lines
      [("1".toList, "2".toList, ⟨1, 2⟩), ("3.5".toList, "-4e1".toList, ⟨7 / 2, -40⟩)] ⟨0, 0⟩
      (by decide!) (by decide)).2.1⟩

/-- The last part of `main` always reaches `StartRegistration`, with the
objects `objectsAtStart`, and ends according to its outcome. -/
theorem register_eq (env : Env) (opened : List String) (cout : List Line)
    (f m : PointsContainer) :
    register env opened cout f m =
      match env.StartRegistration (objectsAtStart f m) with
      | .error e =>
        { exit := .returned EXIT_FAILURE, cerr := [], cout := cout ++ [.exception e],
          opened := opened, fixedPoints := f, movingPoints := m,
          started := some (objectsAtStart f m), optimizer := some configuredOptimizer }
      | .ok solution =>
        { exit := .returned EXIT_SUCCESS, cerr := [],
          cout := cout ++ [.parameters "Solution = " solution],
          opened := opened, fixedPoints := f, movingPoints := m,
          started := some (objectsAtStart f m), optimizer := some configuredOptimizer } := by
  rfl

/-- The fields of the outcome of `register` that do not depend on the
registration engine. -/
theorem register_fields (env : Env) (opened : List String) (cout : List Line)
    (f m : PointsContainer) :
    (register env opened cout f m).started = some (objectsAtStart f m) ∧
    (register env opened cout f m).optimizer = some configuredOptimizer ∧
    (register env opened cout f m).cerr = [] ∧
    (register env opened cout f m).opened = opened ∧
    (register env opened cout f m).fixedPoints = f ∧
    (register env opened cout f m).movingPoints = m := by
  rw [register_eq]
  cases env.StartRegistration (objectsAtStart f m)
  all_goals simp

/-- Whenever `main` reaches `StartRegistration`, the objects it passes are
`objectsAtStart` of the two loaded point sets, and the optimizer is not touched
afterwards. -/
theorem main_started (fuel : Nat) (argv : List String) (env : Env) (o : Objects)
    (h : (main fuel argv env).started = some o) :
    o = objectsAtStart (main fuel argv env).fixedPoints (main fuel argv env).movingPoints ∧
    (main fuel argv env).optimizer = some configuredOptimizer := by
  unfold main at h ⊢
  simp only at h ⊢
  split_ifs at h ⊢
  simp_all [register_fields]

/-- The only path `main` ever passes to `open` is its first file argument. -/
theorem main_opens_first_argument (fuel : Nat) (argv : List String) (env : Env) :
    ∀ p ∈ (main fuel argv env).opened, p = argv.getD 1 "" := by
  unfold main
  simp only
  split_ifs <;> simp [register_fields]

/-- When the fixed-points file cannot be opened, `main` returns 2 with the
name of that file in the message; nothing has been inserted and the
registration is not started. -/
theorem main_fixed_open_fails (fuel : Nat) (argv : List String) (env : Env)
    (h3 : 3 ≤ argv.length) (h : env.openFile 0 (argv.getD 1 "") = none) :
    main fuel argv env =
      { exit := .returned 2, cerr := openError (argv.getD 1 ""), cout := [],
        opened := [argv.getD 1 ""], fixedPoints := PointsContainer.empty,
        movingPoints := PointsContainer.empty, started := none, optimizer := none } := by
  have h3' : ¬ argv.length < 3 := by omega
  unfold main
  simp only [h3', if_false, h, IStream.ofOpen, IStream.fail, if_true]

/-- At every call of `StartRegistration` the initial transform parameters held
by the registration method are (10,10), which are also the parameters of the
transform, while the identity parameters are (0,0). -/
theorem main_initial_parameters (fuel : Nat) (argv : List String) (env : Env)
    (o : Objects) (h : (main fuel argv env).started = some o) :
    o.registration.initialTransformParameters = [10, 10] ∧
    o.transform.GetParameters = [10, 10] ∧
    TranslationTransform.New.SetIdentity.GetParameters = [0, 0] := by
  obtain ⟨ho, -⟩ := main_started fuel argv env o h
  rw [ho]
  exact ⟨rfl, rfl, rfl⟩

/-- In terms of the two calls of `open` that `main` makes, both with its first
file argument: `main` returns `EXIT_SUCCESS` with the line "Solution = " and
the parameters that `StartRegistration` left in the transform as its last
output exactly when both calls succeeded, both loaders ended and
`StartRegistration` returned normally; when `StartRegistration` throws, `main`
prints the exception last, returns `EXIT_FAILURE` and prints no solution. -/
theorem main_success_iff_registration_returned (fuel : Nat) (argv : List String) (env : Env) :
    (((main fuel argv env).exit = .returned EXIT_SUCCESS ∧
        ∃ p, (main fuel argv env).cout.getLast? = some (.parameters "Solution = " p)) ↔
      (3 ≤ argv.length ∧ (env.openFile 0 (argv.getD 1 "")).isSome ∧
        (env.openFile 1 (argv.getD 1 "")).isSome ∧
        ∃ o p, (main fuel argv env).started = some o ∧ env.StartRegistration o = .ok p)) ∧
    (∀ o p, (main fuel argv env).started = some o → env.StartRegistration o = .ok p →
      (main fuel argv env).exit = .returned EXIT_SUCCESS ∧
      (main fuel argv env).cout.getLast? = some (.parameters "Solution = " p)) ∧
    (∀ o e, (main fuel argv env).started = some o → env.StartRegistration o = .error e →
      (main fuel argv env).exit = .returned EXIT_FAILURE ∧
      (main fuel argv env).cout.getLast? = some (.exception e) ∧
      ∀ p, Line.parameters "Solution = " p ∉ (main fuel argv env).cout) := by
  unfold main
  simp only
  by_cases h3 : argv.length < 3
  · simp [h3, EXIT_SUCCESS]
  · have h3' : 3 ≤ argv.length := by omega
    simp only [h3, if_false]
    cases h0 : env.openFile 0 (argv.getD 1 "") with
    | none => simp [IStream.ofOpen, IStream.fail, EXIT_SUCCESS]
    | some c0 =>
      simp only [IStream.ofOpen, IStream.fail, Bool.false_eq_true, if_false]
      by_cases hl0 : (loadPoints fuel ⟨c0, false, false⟩ env.uninitialized).2 = true
      · simp only [hl0, Bool.not_true, Bool.false_eq_true, if_false]
        cases h1 : env.openFile 1 (argv.getD 1 "") with
        | none => simp [EXIT_SUCCESS]
        | some c1 =>
          simp only [Bool.false_eq_true, if_false]
          by_cases hl1 : (loadPoints fuel ⟨c1, false, false⟩ env.uninitialized).2 = true
          · simp only [hl1, Bool.not_true, Bool.false_eq_true, if_false]
            rw [register_eq]
            cases hreg : env.StartRegistration _ with
            | error e =>
              simp [hreg, h3', EXIT_SUCCESS, EXIT_FAILURE]
              constructor
              · rintro o q rfl
                simp [hreg]
              · rintro o e1 rfl h
                rw [hreg] at h
                injection h
            | ok p =>
              simp [hreg, h3', EXIT_SUCCESS, EXIT_FAILURE]
              constructor
              · rintro o q rfl h
                rw [hreg] at h
                injection h
              · rintro o e1 rfl
                simp [hreg]
          · simp [hl1]
      · simp [hl0]

/-- When both calls of `open` succeed and both loaders leave their loops,
`main` goes on to the registration with the two loaded sets. -/
theorem main_of_loaded (fuel : Nat) (argv : List String) (env : Env) (c0 c1 : List Char)
    (s0 s1 : LoadState) (h3 : 3 ≤ argv.length)
    (ho0 : env.openFile 0 (argv.getD 1 "") = some c0)
    (hl0 : loadPoints fuel (IStream.ofOpen (some c0)) env.uninitialized = (s0, true))
    (ho1 : env.openFile 1 (argv.getD 1 "") = some c1)
    (hl1 : loadPoints fuel (IStream.ofOpen (some c1)) env.uninitialized = (s1, true)) :
    main fuel argv env =
      register env [argv.getD 1 "", argv.getD 1 ""]
        [.count "Number of fixed Points = " s0.container.GetNumberOfPoints,
         .count "Number of moving Points = " s1.container.GetNumberOfPoints]
        s0.container s1.container := by
  have h3' : ¬ argv.length < 3 := by omega
  have hf0 : (IStream.ofOpen (some c0)).fail = false := rfl
  have hf1 : (IStream.ofOpen (some c1)).fail = false := rfl
  unfold main
  simp only [h3', ho0, ho1, hl0, hl1, hf0, hf1, if_false, Bool.false_eq_true, Bool.not_true,
    List.singleton_append]

/-! ## Facts about the registration engine -/

/-- A squared distance is not negative. -/
theorem squaredDistance_nonneg (a b : Point) : 0 ≤ squaredDistance a b := by
  unfold squaredDistance
  positivity

/-- A point is at distance 0 from itself. -/
theorem squaredDistance_self (a : Point) : squaredDistance a a = 0 := by
  simp [squaredDistance]

/-- Points at squared distance 0 have the same coordinates. -/
theorem squaredDistance_eq_zero (a b : Point) (h : squaredDistance a b = 0) :
    a.x = b.x ∧ a.y = b.y := by
  unfold squaredDistance at h
  constructor
  · nlinarith [sq_nonneg (a.x - b.x), sq_nonneg (a.y - b.y)]
  · nlinarith [sq_nonneg (a.x - b.x), sq_nonneg (a.y - b.y)]

/-- The point the scan selects is at least as close as the starting point and
as every scanned point. -/
theorem closestFrom_le (q : Point) (fs : List Point) (best : Point) :
    squaredDistance (closestFrom q best fs) q ≤ squaredDistance best q ∧
    ∀ f ∈ fs, squaredDistance (closestFrom q best fs) q ≤ squaredDistance f q := by
  induction fs generalizing best with
  | nil => simp [closestFrom]
  | cons g gs ih =>
    rw [closestFrom]
    obtain ⟨h1, h2⟩ := ih (if squaredDistance g q < squaredDistance best q then g else best)
    constructor
    · refine le_trans h1 ?_
      split_ifs with hlt
      · exact le_of_lt hlt
      · exact le_refl _
    · intro f hf
      rcases List.mem_cons.mp hf with rfl | hf
      · refine le_trans h1 ?_
        split_ifs with hlt
        · exact le_refl _
        · exact not_lt.mp hlt
      · exact h2 f hf

/-- At the identity parameters a moving point that is also a fixed point is
matched to a fixed point with the same coordinates. -/
theorem closestFrom_self (f : Point) (fs : List Point) (m : Point) (hm : m ∈ f :: fs) :
    (closestFrom (TransformPoint (0, 0) m) f fs).x = m.x ∧
    (closestFrom (TransformPoint (0, 0) m) f fs).y = m.y := by
  have hq : TransformPoint (0, 0) m = m := by
    simp [TransformPoint]
  rw [hq]
  obtain ⟨h1, h2⟩ := closestFrom_le m fs f
  have hle : squaredDistance (closestFrom m f fs) m ≤ 0 := by
    rcases List.mem_cons.mp hm with rfl | hm
    · simpa [squaredDistance_self] using h1
    · simpa [squaredDistance_self] using h2 m hm
  exact squaredDistance_eq_zero _ _ (le_antisymm hle (squaredDistance_nonneg _ _))

/-- At the identity parameters every residual of a set registered against a
set that contains it is zero. -/
theorem residualRows_identity (f : Point) (fs moving : List Point)
    (hsub : ∀ m ∈ moving, m ∈ f :: fs) :
    ∀ r ∈ residualRows f fs moving (0, 0), r.value = 0 := by
  intro r hr
  unfold residualRows at hr
  obtain ⟨m, hm, hr⟩ := List.mem_flatMap.mp hr
  obtain ⟨hx, hy⟩ := closestFrom_self f fs m (hsub m hm)
  simp only [List.mem_cons, List.mem_singleton, List.not_mem_nil, or_false] at hr
  rcases hr with rfl | rfl
  · show (TransformPoint (0, 0) m).x - (closestFrom (TransformPoint (0, 0) m) f fs).x = 0
    rw [hx]
    simp [TransformPoint]
  · show (TransformPoint (0, 0) m).y - (closestFrom (TransformPoint (0, 0) m) f fs).y = 0
    rw [hy]
    simp [TransformPoint]

/-- Rows whose residuals are all zero have zero cost and zero gradient. -/
theorem zero_rows (rows : List ResidualRow) (h : ∀ r ∈ rows, r.value = 0) :
    aggregateCost rows = 0 ∧ gradient rows = (0, 0) := by
  induction rows with
  | nil => simp [aggregateCost, gradient]
  | cons r rs ih =>
    have hr : r.value = 0 := h r (List.mem_cons_self _ _)
    obtain ⟨hc, hg⟩ := ih (fun s hs => h s (List.mem_cons_of_mem _ hs))
    unfold aggregateCost at hc ⊢
    unfold gradient at hg ⊢
    simp only [Prod.mk.injEq] at hg
    simp [hr, hc, hg.1, hg.2]

/-- The three matches of the collinear set against itself under a diagonal
translation `(t, t)` with `5 < t ≤ 15`: the first point goes to the second
fixed point, the other two to the third. -/
theorem closestFrom_collinear (t : ℚ) (h1 : 5 < t) (h2 : t ≤ 15) :
    closestFrom (TransformPoint (t, t) ⟨0, 0⟩) ⟨0, 0⟩ [⟨10, 10⟩, ⟨20, 20⟩] = ⟨10, 10⟩ ∧
    closestFrom (TransformPoint (t, t) ⟨10, 10⟩) ⟨0, 0⟩ [⟨10, 10⟩, ⟨20, 20⟩] = ⟨20, 20⟩ ∧
    closestFrom (TransformPoint (t, t) ⟨20, 20⟩) ⟨0, 0⟩ [⟨10, 10⟩, ⟨20, 20⟩] = ⟨20, 20⟩ := by
  refine ⟨?_, ?_, ?_⟩
  · have a : squaredDistance ⟨10, 10⟩ (TransformPoint (t, t) ⟨0, 0⟩)
        < squaredDistance ⟨0, 0⟩ (TransformPoint (t, t) ⟨0, 0⟩) := by
      simp only [squaredDistance, TransformPoint]
      nlinarith
    have b : ¬ squaredDistance ⟨20, 20⟩ (TransformPoint (t, t) ⟨0, 0⟩)
        < squaredDistance ⟨10, 10⟩ (TransformPoint (t, t) ⟨0, 0⟩) := by
      simp only [squaredDistance, TransformPoint]
      nlinarith
    simp only [closestFrom, if_pos a, if_neg b]
  · have a : squaredDistance ⟨10, 10⟩ (TransformPoint (t, t) ⟨10, 10⟩)
        < squaredDistance ⟨0, 0⟩ (TransformPoint (t, t) ⟨10, 10⟩) := by
      simp only [squaredDistance, TransformPoint]
      nlinarith
    have b : squaredDistance ⟨20, 20⟩ (TransformPoint (t, t) ⟨10, 10⟩)
        < squaredDistance ⟨10, 10⟩ (TransformPoint (t, t) ⟨10, 10⟩) := by
      simp only [squaredDistance, TransformPoint]
      nlinarith
    simp only [closestFrom, if_pos a, if_pos b]
  · have a : squaredDistance ⟨10, 10⟩ (TransformPoint (t, t) ⟨20, 20⟩)
        < squaredDistance ⟨0, 0⟩ (TransformPoint (t, t) ⟨20, 20⟩) := by
      simp only [squaredDistance, TransformPoint]
      nlinarith
    have b : squaredDistance ⟨20, 20⟩ (TransformPoint (t, t) ⟨20, 20⟩)
        < squaredDistance ⟨10, 10⟩ (TransformPoint (t, t) ⟨20, 20⟩) := by
      simp only [squaredDistance, TransformPoint]
      nlinarith
    simp only [closestFrom, if_pos a, if_pos b]

/-- The residual rows of the collinear set against itself under a diagonal
translation `(t, t)` with `5 < t ≤ 15`. -/
theorem residualRows_collinear (t : ℚ) (h1 : 5 < t) (h2 : t ≤ 15) :
    residualRows ⟨0, 0⟩ [⟨10, 10⟩, ⟨20, 20⟩] collinear (t, t) =
      [⟨t - 10, 1, 0⟩, ⟨t - 10, 0, 1⟩, ⟨t - 10, 1, 0⟩, ⟨t - 10, 0, 1⟩, ⟨t, 1, 0⟩, ⟨t, 0, 1⟩] := by
  obtain ⟨c0, c1, c2⟩ := closestFrom_collinear t h1 h2
  simp only [residualRows, collinear, List.flatMap_cons, List.flatMap_nil, c0, c1, c2,
    List.cons_append, List.nil_append, List.append_nil]
  simp only [TransformPoint, Jacobian, List.cons.injEq, ResidualRow.mk.injEq, and_true,
    true_and]
  refine ⟨?_, ?_, ?_, ?_, ?_, ?_⟩ <;> ring


/-- The damped step of the collinear example at `(t, t)`. -/
theorem solveDamped_collinear (t lam : ℚ) (hlam : 0 ≤ lam) :
    solveDamped
      [⟨t - 10, 1, 0⟩, ⟨t - 10, 0, 1⟩, ⟨t - 10, 1, 0⟩, ⟨t - 10, 0, 1⟩, ⟨t, 1, 0⟩, ⟨t, 0, 1⟩] lam
      = some (-(3 * t - 20) / (3 + 3 * lam), -(3 * t - 20) / (3 + 3 * lam)) := by
  have hpos : (0 : ℚ) < 3 + 3 * lam := by linarith
  have hne : (3 + 3 * lam) ≠ 0 := ne_of_gt hpos
  have hdet : ¬ ((3 + lam * 3) * (3 + lam * 3) - 0 * 0 = 0) := by
    intro h
    have : (3 + lam * 3) * (3 + lam * 3) = 0 := by linarith
    rcases mul_self_eq_zero.mp this with h0
    apply hne
    linarith
  simp only [solveDamped, hessian, gradient, List.map_cons, List.map_nil, List.sum_cons,
    List.sum_nil]
  norm_num
  refine ⟨?_, ?_, ?_⟩
  · intro h
    apply hdet
    linarith
  · field_simp
    ring
  · field_simp
    ring


/-- A damped step from a point of `stuck` lands on `stuck`. -/
theorem stuck_step (t lam : ℚ) (h1 : 20 / 3 ≤ t) (h2 : t ≤ 10) (hlam : 0 ≤ lam) :
    stuck (t + -(3 * t - 20) / (3 + 3 * lam), t + -(3 * t - 20) / (3 + 3 * lam)) := by
  have hpos : (0 : ℚ) < 3 + 3 * lam := by linarith
  have hs : -(3 * t - 20) / (3 + 3 * lam) ≤ 0 := by
    apply div_nonpos_of_nonpos_of_nonneg <;> linarith
  have hs2 : -(t - 20 / 3) ≤ -(3 * t - 20) / (3 + 3 * lam) := by
    rw [le_div_iff₀ hpos]
    nlinarith
  refine ⟨rfl, ?_, ?_⟩ <;> simp only <;> linarith

/-- In the collinear example the step search from a point of `stuck` never
finds the system singular and never leaves `stuck`. -/
theorem attemptStep_collinear (d : Damping) (hi : 0 ≤ d.increase) (hd : 0 ≤ d.decrease)
    (t : ℚ) (h1 : 20 / 3 ≤ t) (h2 : t ≤ 10) (retries : Nat) (lam : ℚ) (hlam : 0 ≤ lam) :
    (attemptStep d ⟨0, 0⟩ [⟨10, 10⟩, ⟨20, 20⟩] collinear (t, t)
      (residualRows ⟨0, 0⟩ [⟨10, 10⟩, ⟨20, 20⟩] collinear (t, t)) retries lam).keeps := by
  rw [residualRows_collinear t (by linarith) (by linarith)]
  induction retries generalizing lam with
  | zero =>
    simp only [attemptStep, trialStep, solveDamped_collinear t lam hlam]
    split_ifs
    · exact ⟨stuck_step t lam h1 h2 hlam, mul_nonneg hlam hd⟩
    · exact mul_nonneg hlam hi
  | succ n ih =>
    simp only [attemptStep, trialStep, solveDamped_collinear t lam hlam]
    split_ifs
    · exact ⟨stuck_step t lam h1 h2 hlam, mul_nonneg hlam hd⟩
    · exact ih (lam * d.increase) (mul_nonneg hlam hi)

/-- In the collinear example the optimizer loop started on `stuck` ends on
`stuck`, without error, whatever the tolerances and the iteration bound. -/
theorem iterate_collinear (opt : LevenbergMarquardtOptimizer) (d : Damping)
    (hi : 0 ≤ d.increase) (hd : 0 ≤ d.decrease) (n : Nat) (x : ℚ × ℚ) (lam : ℚ)
    (hx : stuck x) (hlam : 0 ≤ lam) :
    stuck (iterate opt d ⟨0, 0⟩ [⟨10, 10⟩, ⟨20, 20⟩] collinear n x lam).parameters ∧
    (iterate opt d ⟨0, 0⟩ [⟨10, 10⟩, ⟨20, 20⟩] collinear n x lam).error = none := by
  induction n generalizing x lam with
  | zero =>
    unfold iterate
    simp only
    split_ifs <;> exact ⟨hx, rfl⟩
  | succ n ih =>
    obtain ⟨t, u⟩ := x
    obtain ⟨htu, h1, h2⟩ := hx
    simp only at htu h1 h2
    subst htu
    have hk := attemptStep_collinear d hi hd t h1 h2 d.retries lam hlam
    unfold iterate
    simp only
    split_ifs
    · exact ⟨⟨rfl, h1, h2⟩, rfl⟩
    · cases hatt : attemptStep d ⟨0, 0⟩ [⟨10, 10⟩, ⟨20, 20⟩] collinear (t, t)
          (residualRows ⟨0, 0⟩ [⟨10, 10⟩, ⟨20, 20⟩] collinear (t, t)) d.retries lam with
      | singular =>
        rw [hatt] at hk
        exact absurd hk (by simp [Attempt.keeps])
      | rejected lam1 =>
        rw [hatt] at hk
        simp only
        exact ih (t, t) lam1 ⟨rfl, h1, h2⟩ hk
      | accepted x1 step lam1 =>
        rw [hatt] at hk
        simp only
        split_ifs
        · exact ⟨hk.1, rfl⟩
        · exact ih x1 lam1 hk.1 hk.2

/-- On `stuck` the aggregate cost of the collinear example is at least
400/3. -/
theorem cost_collinear (x : ℚ × ℚ) (hx : stuck x) : 400 / 3 ≤ costAt collinear collinear x := by
  obtain ⟨t, u⟩ := x
  obtain ⟨htu, h1, h2⟩ := hx
  simp only at htu h1 h2
  subst htu
  simp only [costAt, collinear]
  have := residualRows_collinear t (by linarith) (by linarith)
  simp only [collinear] at this
  rw [this]
  simp only [aggregateCost, List.map_cons, List.map_nil, List.sum_cons, List.sum_nil]
  nlinarith [sq_nonneg (3 * t - 20)]

/-- The collinear set registered against itself from (10,10): whatever the
damping schedule (with non-negative factors), the tolerances and the iteration
bound, the run ends without error at parameters `(t, t)` with
`20/3 ≤ t ≤ 10`, where the aggregate cost is at least 400/3. -/
theorem run_collinear (opt : LevenbergMarquardtOptimizer) (d : Damping)
    (h0 : 0 ≤ d.initial) (hi : 0 ≤ d.increase) (hd : 0 ≤ d.decrease) :
    stuck (run opt d collinear collinear (10, 10)).parameters ∧
    (run opt d collinear collinear (10, 10)).error = none ∧
    400 / 3 ≤ costAt collinear collinear (run opt d collinear collinear (10, 10)).parameters := by
  have hs : stuck ((10 : ℚ), (10 : ℚ)) := by
    refine ⟨rfl, ?_, ?_⟩ <;> norm_num
  have h := iterate_collinear opt d hi hd opt.numberOfIterations (10, 10) d.initial hs h0
  have hr : run opt d collinear collinear (10, 10)
      = iterate opt d ⟨0, 0⟩ [⟨10, 10⟩, ⟨20, 20⟩] collinear opt.numberOfIterations (10, 10)
          d.initial := rfl
  rw [hr]
  exact ⟨h.1, h.2, cost_collinear _ h.1⟩

/-- A non-empty point set registered against itself, started at the identity
parameters (0,0), ends converged at (0,0) with aggregate cost 0, for every
damping schedule, every iteration bound and every non-negative gradient
tolerance. -/
theorem run_from_identity (opt : LevenbergMarquardtOptimizer) (d : Damping)
    (pts : List Point) (hne : pts ≠ []) (htol : 0 ≤ opt.gradientTolerance) :
    run opt d pts pts (0, 0) = ⟨.Converged, (0, 0), none⟩ ∧
    costAt pts pts (0, 0) = 0 := by
  cases pts with
  | nil => exact absurd rfl hne
  | cons f fs =>
    obtain ⟨hc, hg⟩ := zero_rows _ (residualRows_identity f fs (f :: fs) (fun m hm => hm))
    refine ⟨?_, by simpa [costAt] using hc⟩
    have key : 0 ≤ opt.gradientTolerance ∧
        normSq (gradient (residualRows f fs (f :: fs) (0, 0))) ≤ opt.gradientTolerance ^ 2 := by
      refine ⟨htol, ?_⟩
      rw [hg]
      have h0 : normSq ((0 : ℚ), (0 : ℚ)) = 0 := by simp [normSq]
      rw [h0]
      exact sq_nonneg _
    unfold run
    simp only
    unfold iterate
    simp only [if_pos key]


/-- The Gauss-Newton matrix of the translation transform: the number of moving
points on the diagonal, 0 off it. -/
theorem hessian_residualRows (f : Point) (fs moving : List Point) (x : ℚ × ℚ) :
    hessian (residualRows f fs moving x) = ((moving.length : ℚ), 0, (moving.length : ℚ)) := by
  induction moving with
  | nil => simp [residualRows, hessian]
  | cons m ms ih =>
    have hc : residualRows f fs (m :: ms) x
        = [⟨(TransformPoint x m).x - (closestFrom (TransformPoint x m) f fs).x, 1, 0⟩,
           ⟨(TransformPoint x m).y - (closestFrom (TransformPoint x m) f fs).y, 0, 1⟩]
          ++ residualRows f fs ms x := by
      simp [residualRows, Jacobian]
    rw [hc]
    simp only [hessian, Prod.mk.injEq] at ih ⊢
    obtain ⟨h1, h2, h3⟩ := ih
    simp only [List.map_append, List.sum_append, List.map_cons, List.map_nil, List.sum_cons,
      List.sum_nil, h1, h2, h3, List.length_cons, Nat.cast_add, Nat.cast_one]
    refine ⟨?_, ?_, ?_⟩ <;> ring

/-- With at least one moving point and a non-negative damping factor the
damped normal equations have a solution. -/
theorem solveDamped_isSome (f : Point) (fs moving : List Point) (x : ℚ × ℚ) (lam : ℚ)
    (hm : moving ≠ []) (hlam : 0 ≤ lam) :
    ∃ step, solveDamped (residualRows f fs moving x) lam = some step := by
  have hN : (0 : ℚ) < (moving.length : ℚ) := by
    have : 0 < moving.length := List.length_pos.mpr hm
    exact_mod_cast this
  have hpos : (0 : ℚ) < (moving.length : ℚ) + lam * (moving.length : ℚ) := by
    have := mul_nonneg hlam (le_of_lt hN)
    linarith
  have hdet : ¬ (((moving.length : ℚ) + lam * (moving.length : ℚ)) *
      ((moving.length : ℚ) + lam * (moving.length : ℚ)) - 0 * 0 = 0) := by
    have := mul_pos hpos hpos
    intro h
    linarith
  simp only [solveDamped, hessian_residualRows, if_neg hdet]
  exact ⟨_, rfl⟩

/-- The step search from any parameters, with at least one moving point and a
non-negative damping factor: the system is never found singular, the damping
factor stays non-negative, and an accepted step has a smaller aggregate
cost. -/
theorem attemptStep_sound (d : Damping) (hi : 0 ≤ d.increase) (hd : 0 ≤ d.decrease)
    (f : Point) (fs moving : List Point) (x : ℚ × ℚ) (hm : moving ≠ []) (retries : Nat)
    (lam : ℚ) (hlam : 0 ≤ lam) :
    attemptStep d f fs moving x (residualRows f fs moving x) retries lam ≠ .singular ∧
    (∀ l, attemptStep d f fs moving x (residualRows f fs moving x) retries lam = .rejected l →
      0 ≤ l) ∧
    (∀ x1 s l,
      attemptStep d f fs moving x (residualRows f fs moving x) retries lam = .accepted x1 s l →
      aggregateCost (residualRows f fs moving x1) < aggregateCost (residualRows f fs moving x) ∧
      0 ≤ l) := by
  induction retries generalizing lam with
  | zero =>
    obtain ⟨step, hstep⟩ := solveDamped_isSome f fs moving x lam hm hlam
    simp only [attemptStep, trialStep, hstep]
    split_ifs with hc
    · refine ⟨by simp, by simp, ?_⟩
      intro x1 s l h
      simp only [Attempt.accepted.injEq] at h
      obtain ⟨rfl, -, rfl⟩ := h
      exact ⟨hc, mul_nonneg hlam hd⟩
    · refine ⟨by simp, ?_, by simp⟩
      intro l h
      simp only [Attempt.rejected.injEq] at h
      subst h
      exact mul_nonneg hlam hi
  | succ n ih =>
    obtain ⟨step, hstep⟩ := solveDamped_isSome f fs moving x lam hm hlam
    simp only [attemptStep, trialStep, hstep]
    split_ifs with hc
    · refine ⟨by simp, by simp, ?_⟩
      intro x1 s l h
      simp only [Attempt.accepted.injEq] at h
      obtain ⟨rfl, -, rfl⟩ := h
      exact ⟨hc, mul_nonneg hlam hd⟩
    · exact ih (lam * d.increase) (mul_nonneg hlam hi)

/-- The optimizer loop from any parameters, with at least one moving point and
a non-negative damping factor: it ends without error, at parameters whose
aggregate cost is not larger than at the start. -/
theorem iterate_sound (opt : LevenbergMarquardtOptimizer) (d : Damping)
    (hi : 0 ≤ d.increase) (hd : 0 ≤ d.decrease) (f : Point) (fs moving : List Point)
    (hm : moving ≠ []) (n : Nat) (x : ℚ × ℚ) (lam : ℚ) (hlam : 0 ≤ lam) :
    (iterate opt d f fs moving n x lam).error = none ∧
    aggregateCost (residualRows f fs moving (iterate opt d f fs moving n x lam).parameters)
      ≤ aggregateCost (residualRows f fs moving x) := by
  induction n generalizing x lam with
  | zero =>
    unfold iterate
    simp only
    split_ifs <;> exact ⟨rfl, le_refl _⟩
  | succ n ih =>
    obtain ⟨hns, hrej, hacc⟩ := attemptStep_sound d hi hd f fs moving x hm d.retries lam hlam
    unfold iterate
    simp only
    split_ifs
    · exact ⟨rfl, le_refl _⟩
    · cases hatt : attemptStep d f fs moving x (residualRows f fs moving x) d.retries lam with
      | singular => exact absurd hatt hns
      | rejected lam1 =>
        simp only
        exact ih x lam1 (hrej lam1 hatt)
      | accepted x1 step lam1 =>
        obtain ⟨hlt, hl1⟩ := hacc x1 step lam1 hatt
        simp only
        split_ifs
        · exact ⟨rfl, le_of_lt hlt⟩
        · obtain ⟨h1, h2⟩ := ih x1 lam1 hl1
          exact ⟨h1, le_trans h2 (le_of_lt hlt)⟩

/-- A non-empty point set registered against itself from any parameters, with
non-negative damping factors: the run ends without error, at parameters whose
aggregate cost is not larger than at the start. -/
theorem run_sound (opt : LevenbergMarquardtOptimizer) (d : Damping) (h0 : 0 ≤ d.initial)
    (hi : 0 ≤ d.increase) (hd : 0 ≤ d.decrease) (pts : List Point) (hne : pts ≠ [])
    (x : ℚ × ℚ) :
    (run opt d pts pts x).error = none ∧
    costAt pts pts (run opt d pts pts x).parameters ≤ costAt pts pts x := by
  cases pts with
  | nil => exact absurd rfl hne
  | cons f fs =>
    exact iterate_sound opt d hi hd f fs (f :: fs) (by simp) opt.numberOfIterations x
      d.initial h0


/-- The program run on the file of the collinear points, with the modelled
engine and any damping schedule with non-negative factors: both sets hold the
collinear points, `main` returns `EXIT_SUCCESS`, and the solution printed is
the end point of the registration of the set against itself from (10,10). -/
theorem main_collinear (d : Damping) (h0 : 0 ≤ d.initial) (hi : 0 ≤ d.increase)
    (hd : 0 ≤ d.decrease) :
    (main 4 collinearArgs (envWithEngine d collinearFiles)).exit = .returned EXIT_SUCCESS ∧
    (main 4 collinearArgs (envWithEngine d collinearFiles)).fixedPoints.points = collinear ∧
    (main 4 collinearArgs (envWithEngine d collinearFiles)).movingPoints.points = collinear ∧
    (main 4 collinearArgs (envWithEngine d collinearFiles)).cout.getLast?
      = some (.parameters "Solution = "
          [(run configuredOptimizer d collinear collinear (10, 10)).parameters.1,
           (run configuredOptimizer d collinear collinear (10, 10)).parameters.2]) := by
  have hopen : ∀ n, (envWithEngine d collinearFiles).openFile n (collinearArgs.getD 1 "")
      = some "0 0\n10 10\n20 20\n".toList := by
    intro n
    show ((List.lookup "p.txt" collinearFiles).map String.toList) = _
    decide!
  have hload : loadPoints 4 (IStream.ofOpen (some "0 0\n10 10\n20 20\n".toList))
      (envWithEngine d collinearFiles).uninitialized
      = (⟨⟨[], true, true⟩, ⟨20, 20⟩, ⟨[(0, ⟨0, 0⟩), (1, ⟨10, 10⟩), (2, ⟨20, 20⟩)]⟩, 3⟩,
         true) := by
    show loadPoints 4 (IStream.ofOpen (some "0 0\n10 10\n20 20\n".toList)) ⟨0, 0⟩ = _
    decide!
  have hE : (envWithEngine d collinearFiles).StartRegistration = StartRegistration d := rfl
  have herr := (run_collinear configuredOptimizer d h0 hi hd).2.1
  have hreg : StartRegistration d
      (objectsAtStart ⟨[(0, ⟨0, 0⟩), (1, ⟨10, 10⟩), (2, ⟨20, 20⟩)]⟩
        ⟨[(0, ⟨0, 0⟩), (1, ⟨10, 10⟩), (2, ⟨20, 20⟩)]⟩)
      = .ok [(run configuredOptimizer d collinear collinear (10, 10)).parameters.1,
             (run configuredOptimizer d collinear collinear (10, 10)).parameters.2] := by
    have hpts : (objectsAtStart ⟨[(0, ⟨0, 0⟩), (1, ⟨10, 10⟩), (2, ⟨20, 20⟩)]⟩
        ⟨[(0, ⟨0, 0⟩), (1, ⟨10, 10⟩), (2, ⟨20, 20⟩)]⟩).fixedPointSet.points = collinear := rfl
    have hpts2 : (objectsAtStart ⟨[(0, ⟨0, 0⟩), (1, ⟨10, 10⟩), (2, ⟨20, 20⟩)]⟩
        ⟨[(0, ⟨0, 0⟩), (1, ⟨10, 10⟩), (2, ⟨20, 20⟩)]⟩).movingPointSet.points = collinear := rfl
    have hopt : (objectsAtStart ⟨[(0, ⟨0, 0⟩), (1, ⟨10, 10⟩), (2, ⟨20, 20⟩)]⟩
        ⟨[(0, ⟨0, 0⟩), (1, ⟨10, 10⟩), (2, ⟨20, 20⟩)]⟩).optimizer = configuredOptimizer := rfl
    have hini : (objectsAtStart ⟨[(0, ⟨0, 0⟩), (1, ⟨10, 10⟩), (2, ⟨20, 20⟩)]⟩
        ⟨[(0, ⟨0, 0⟩), (1, ⟨10, 10⟩), (2, ⟨20, 20⟩)]⟩).registration.initialTransformParameters
        = [10, 10] := rfl
    unfold StartRegistration
    simp only [hini, hpts, hpts2, hopt, herr]
  rw [main_of_loaded 4 collinearArgs (envWithEngine d collinearFiles) _ _ _ _ (by decide)
    (hopen 0) hload (hopen 1) hload, register_eq, hE, hreg]
  exact ⟨rfl, rfl, rfl, by simp⟩

/-! ## The claims -/

/-- C5: with fewer than two file arguments (`argc < 3`) `main` returns 1 after
printing the usage message, having opened no file, inserted no point and not
started registration; with `argc >= 3` the usage branch is not taken: `cerr`
is not the usage message and the first file argument is passed to `open`. -/
theorem C5_usage_branch (fuel : Nat) (argv : List String) (env : Env) :
    (argv.length < 3 →
      main fuel argv env =
        { exit := .returned 1, cerr := usageMessage, cout := [], opened := [],
          fixedPoints := PointsContainer.empty, movingPoints := PointsContainer.empty,
          started := none, optimizer := none }) ∧
    (3 ≤ argv.length →
      (main fuel argv env).cerr ≠ usageMessage ∧
      (main fuel argv env).opened.head? = some (argv.getD 1 "")) := by
  constructor
  · intro h
    simp [main, h]
  · intro h
    have h3 : ¬ argv.length < 3 := by omega
    unfold main
    simp only [h3, if_false]
    split_ifs <;> simp [openError, usageMessage, register_fields]

/-- Witness of C5: one invocation without file arguments and one with two. -/
theorem C5_usage_branch_witness :
    main 0 ["IterativeClosestPoint1"] (envOf []) =
        { exit := .returned 1, cerr := usageMessage, cout := [], opened := [],
          fixedPoints := PointsContainer.empty, movingPoints := PointsContainer.empty,
          started := none, optimizer := none } ∧
    (main 0 ["IterativeClosestPoint1", "a", "b"] (envOf [])).cerr ≠ usageMessage :=
  ⟨(C5_usage_branch 0 ["IterativeClosestPoint1"] (envOf [])).1 (by decide),
   ((C5_usage_branch 0 ["IterativeClosestPoint1", "a", "b"] (envOf [])).2 (by decide)).1⟩

/-- C4: at the call of `StartRegistration` the optimizer has the analytic
gradient disabled, a scale vector of as many entries as the transform has
parameters, all 1, at most 1000 iterations, gradient tolerance 1/10, value
tolerance 1/10 and epsilon 1/10^9; the optimizer `main` ends with is the
same. -/
theorem C4_optimizer_configuration (fuel : Nat) (argv : List String) (env : Env)
    (o : Objects) (h : (main fuel argv env).started = some o) :
    o.optimizer.useCostFunctionGradient = false ∧
    o.optimizer.scales.length = o.transform.GetNumberOfParameters ∧
    (∀ s ∈ o.optimizer.scales, s = 1) ∧
    o.optimizer.numberOfIterations = 1000 ∧
    o.optimizer.gradientTolerance = 1 / 10 ∧
    o.optimizer.valueTolerance = 1 / 10 ∧
    o.optimizer.epsilonFunction = 1 / 10 ^ 9 ∧
    (main fuel argv env).optimizer = some o.optimizer := by
  obtain ⟨ho, hopt⟩ := main_started fuel argv env o h
  rw [hopt, ho]
  simp [objectsAtStart, configuredOptimizer, TranslationTransform.GetNumberOfParameters,
    TranslationTransform.SpaceDimension]

/-- Witness of C4: a run on a one-point file reaches `StartRegistration`. -/
theorem C4_optimizer_configuration_witness :
    (main 2 ["IterativeClosestPoint1", "p.txt", "p.txt"] (envOf [("p.txt", "1 2\n")])).started
      = some (objectsAtStart ⟨[(0, ⟨1, 2⟩)]⟩ ⟨[(0, ⟨1, 2⟩)]⟩) ∧
    (objectsAtStart ⟨[(0, ⟨1, 2⟩)]⟩ ⟨[(0, ⟨1, 2⟩)]⟩).optimizer.numberOfIterations = 1000 :=
  ⟨by decide!,
   (C4_optimizer_configuration 2 ["IterativeClosestPoint1", "p.txt", "p.txt"]
      (envOf [("p.txt", "1 2\n")]) (objectsAtStart ⟨[(0, ⟨1, 2⟩)]⟩ ⟨[(0, ⟨1, 2⟩)]⟩)
      (by decide!)).2.2.2.1⟩

/-- C8, evaluated at a run on a one-point file: at the call of
`StartRegistration` the registration method holds the initial parameters
(10,10), not the identity parameters (0,0) that the comment "Start from an
Identity transform" announces and that the first call of
`SetInitialTransformParameters` had registered. -/
theorem C8_starts_from_ten_not_identity :
    ((main 2 ["IterativeClosestPoint1", "p.txt", "p.txt"]
        (envOf [("p.txt", "1 2\n")])).started.map
          (fun o => o.registration.initialTransformParameters)) = some [10, 10] ∧
    ((main 2 ["IterativeClosestPoint1", "p.txt", "p.txt"]
        (envOf [("p.txt", "1 2\n")])).started.map
          (fun o => o.registration.initialTransformParameters)) ≠ some [0, 0] ∧
    TranslationTransform.New.SetIdentity.GetParameters = [0, 0] := by
  decide!

/-- C9: the parameter vector is created with as many entries as the transform
has parameters, which is 2; the loop writes the indices 0 and 1, both inside
the vector, and leaves every entry assigned (10); `SetParameters` receives a
vector of exactly that length and does not fail; no run of `main` ends in an
out-of-bounds write or an uncaught exception. -/
theorem C9_parameter_loop (fuel : Nat) (argv : List String) (env : Env) :
    TranslationTransform.New.GetNumberOfParameters = 2 ∧
    (newParameters TranslationTransform.New.GetNumberOfParameters).length
      = TranslationTransform.New.GetNumberOfParameters ∧
    (∀ k ∈ List.range 2,
      k < (newParameters TranslationTransform.New.GetNumberOfParameters).length) ∧
    initParameters (newParameters TranslationTransform.New.GetNumberOfParameters)
      = some [some 10, some 10] ∧
    parameterValues [some 10, some 10] = some [10, 10] ∧
    ([10, 10] : List ℚ).length = TranslationTransform.New.SetIdentity.GetNumberOfParameters ∧
    TranslationTransform.New.SetIdentity.SetParameters [10, 10] = .ok ⟨[10, 10]⟩ ∧
    (main fuel argv env).exit ≠ .undefinedBehaviour ∧
    (∀ e, (main fuel argv env).exit ≠ .uncaught e) := by
  refine ⟨rfl, rfl, by decide, rfl, rfl, rfl, rfl, ?_, ?_⟩
  · unfold main
    simp only
    split_ifs <;> try simp
    rw [register_eq]
    cases env.StartRegistration _ <;> simp
  · intro e
    unfold main
    simp only
    split_ifs <;> try simp
    rw [register_eq]
    cases env.StartRegistration _ <;> simp

/-- C7, evaluated where the moving-points file cannot be opened:
`missing.txt` does not exist at any call of `open` and `fixed.txt` holds one
point.  `main` returns `EXIT_SUCCESS` and prints the "Solution = " line last,
although only `fixed.txt` was ever opened. -/
theorem C7_success_without_moving_file :
    (∀ n, (envOf [("fixed.txt", "0 0\n")]).openFile n "missing.txt" = none) ∧
    (main 3 ["IterativeClosestPoint1", "fixed.txt", "missing.txt"]
        (envOf [("fixed.txt", "0 0\n")])).exit = .returned EXIT_SUCCESS ∧
    (main 3 ["IterativeClosestPoint1", "fixed.txt", "missing.txt"]
        (envOf [("fixed.txt", "0 0\n")])).cout.getLast?
      = some (.parameters "Solution = " [10, 10]) ∧
    "missing.txt" ∉ (main 3 ["IterativeClosestPoint1", "fixed.txt", "missing.txt"]
        (envOf [("fixed.txt", "0 0\n")])).opened := by
  refine ⟨fun n => ?_, by decide!, by decide!, by decide!⟩
  show ((List.lookup "missing.txt" [("fixed.txt", "0 0\n")]).map String.toList) = none
  decide

/-- C1, evaluated at an invocation with two different files: `fixed.txt`
holds the points (0,0) and (1,0), `moving.txt` the point (5,5).  Both calls of
`open` receive `fixed.txt`, and the moving point set ends up with the two
points of `fixed.txt`, while loading `moving.txt` gives the single point
(5,5). -/
theorem C1_moving_points_from_fixed_file :
    (main 3 ["IterativeClosestPoint1", "fixed.txt", "moving.txt"]
        (envOf [("fixed.txt", "0 0\n1 0\n"), ("moving.txt", "5 5\n")])).opened
      = ["fixed.txt", "fixed.txt"] ∧
    (main 3 ["IterativeClosestPoint1", "fixed.txt", "moving.txt"]
        (envOf [("fixed.txt", "0 0\n1 0\n"), ("moving.txt", "5 5\n")])).movingPoints.points
      = [⟨0, 0⟩, ⟨1, 0⟩] ∧
    (loadPoints 3 (IStream.ofOpen (some "5 5\n".toList)) ⟨0, 0⟩).1.container.points
      = [⟨5, 5⟩] ∧
    (main 3 ["IterativeClosestPoint1", "fixed.txt", "moving.txt"]
        (envOf [("fixed.txt", "0 0\n1 0\n"), ("moving.txt", "5 5\n")])).exit
      = .returned EXIT_SUCCESS := by
  decide!

/-- C2, evaluated at a file of two well-formed points whose last coordinate
ends the file (no final newline): the loader leaves the loop normally with a
single point in the set, identifier 0 holding (1,2); the point (3,4) has been
read but not inserted.  With a final newline both points are inserted. -/
theorem C2_last_point_dropped :
    loadPoints 5 (IStream.ofOpen (some "1 2\n3 4".toList)) ⟨0, 0⟩
      = ({ file := ⟨[], true, false⟩, point := ⟨3, 4⟩,
           container := ⟨[(0, ⟨1, 2⟩)]⟩, pointId := 1 }, true) ∧
    (loadPoints 5 (IStream.ofOpen (some "1 2\n3 4".toList)) ⟨0, 0⟩).1.container.GetNumberOfPoints
      = 1 ∧
    (loadPoints 5 (IStream.ofOpen (some "1 2\n3 4".toList)) ⟨0, 0⟩).1.container.GetElement 1
      = none ∧
    (main 5 ["IterativeClosestPoint1", "p.txt", "p.txt"] (envOf [("p.txt", "1 2\n3 4")])).cout
      = [.count "Number of fixed Points = " 1, .count "Number of moving Points = " 1,
         .parameters "Solution = " [10, 10]] ∧
    (loadPoints 5 (IStream.ofOpen (some "1 2\n3 4\n".toList)) ⟨0, 0⟩).1.container
      = ⟨[(0, ⟨1, 2⟩), (1, ⟨3, 4⟩)]⟩ := by
  decide!

/-- C6, evaluated where the moving-points file cannot be opened:
`missing.txt` does not exist and `fixed.txt` holds one point.  `main` never
tries to open `missing.txt`; it starts the registration and returns
`EXIT_SUCCESS`, not 2.  And when the second `open` (again of `fixed.txt`)
fails, the name printed is `moving.txt`, not the path whose open failed. -/
theorem C6_missing_moving_file_not_reported :
    (envOf [("fixed.txt", "0 0\n")]).openFile 1 "missing.txt" = none ∧
    (main 3 ["IterativeClosestPoint1", "fixed.txt", "missing.txt"]
        (envOf [("fixed.txt", "0 0\n")])).exit = .returned EXIT_SUCCESS ∧
    (main 3 ["IterativeClosestPoint1", "fixed.txt", "missing.txt"]
        (envOf [("fixed.txt", "0 0\n")])).started.isSome = true ∧
    (main 3 ["IterativeClosestPoint1", "fixed.txt", "missing.txt"]
        (envOf [("fixed.txt", "0 0\n")])).opened = ["fixed.txt", "fixed.txt"] ∧
    main 3 ["IterativeClosestPoint1", "fixed.txt", "moving.txt"] envVanishing
      = { exit := .returned 2, cerr := openError "moving.txt",
          cout := [.count "Number of fixed Points = " 1],
          opened := ["fixed.txt", "fixed.txt"],
          fixedPoints := ⟨[(0, ⟨0, 0⟩)]⟩, movingPoints := PointsContainer.empty,
          started := none, optimizer := none } := by
  decide!

/-- C10, evaluated at a file with a malformed token, `1 2 x`: whatever the
number of iterations allowed, the point-reading loop has not been left and
`main` is still running; after `n` iterations the loop has inserted `n`
points (here 5), although the file holds one coordinate pair. -/
theorem C10_malformed_token_loops_forever (fuel : Nat) :
    (loadPoints fuel (IStream.ofOpen (some "1 2 x".toList)) ⟨0, 0⟩).2 = false ∧
    (main fuel ["IterativeClosestPoint1", "p.txt", "p.txt"]
        (envOf [("p.txt", "1 2 x")])).exit = .running ∧
    (loadPoints 5 (IStream.ofOpen (some "1 2 x".toList)) ⟨0, 0⟩).1.container.GetNumberOfPoints
      = 5 := by
  have hload : (loadPoints fuel (IStream.ofOpen (some "1 2 x".toList)) ⟨0, 0⟩).2 = false := by
    have h0 : (IStream.ofOpen (some "1 2 x".toList)).readPoint ⟨0, 0⟩
        = (⟨[' ', 'x'], false, false⟩, ⟨1, 2⟩) := by decide!
    have h1 : (loadStep ⟨⟨[' ', 'x'], false, false⟩, ⟨1, 2⟩, PointsContainer.empty, 0⟩).file
        = ⟨['x'], false, true⟩ := by
      decide!
    unfold loadPoints
    simp only [h0]
    cases fuel with
    | zero => simp [loadLoop, IStream.eof]
    | succ n =>
      rw [loadLoop]
      simp only [IStream.eof, Bool.false_eq_true, if_false]
      exact loadLoop_failed n _ (by rw [h1]) (by rw [h1])
  refine ⟨hload, ?_, by decide!⟩
  have hopen : (envOf [("p.txt", "1 2 x")]).openFile 0 "p.txt" = some "1 2 x".toList := by
    decide!
  have hun : (envOf [("p.txt", "1 2 x")]).uninitialized = ⟨0, 0⟩ := rfl
  have hlen : ¬ ["IterativeClosestPoint1", "p.txt", "p.txt"].length < 3 := by decide
  have harg : ["IterativeClosestPoint1", "p.txt", "p.txt"].getD 1 "" = "p.txt" := rfl
  have hfail : (IStream.ofOpen (some "1 2 x".toList)).fail = false := rfl
  unfold main
  simp only [hlen, harg, hopen, hun, hfail, hload, if_false, Bool.false_eq_true, Bool.not_false,
    if_true]



end ICP
